import Mathlib

/-!
Shallow embedding of the OCM SDK authentication transport wrapper
(`authentication` package: builder, token lifecycle manager, token endpoint
client) and proofs about its token-handling behaviour.

Modelling conventions:
* Time is modelled in integer seconds (`Int`).  A JWT `exp` claim is a JSON
  number holding an epoch timestamp; we model the numeric value as `Int`
  (the Go code stores it in a `float64` and truncates with `int64(exp)`;
  for the integral timestamps actually carried by tokens the two agree).
* JWT claim sets (`jwt.MapClaims`, a map from string to JSON value) are
  modelled as association lists from claim name to `ClaimValue`.
* The external HTTP transport, the JWT parser and the URL parser are
  collaborators outside this package; they enter the embedding as explicit
  oracle arguments (`Nat → HttpResult`, `String → Except String Token`,
  `String → Bool`), so every theorem quantifies over their behaviour.
* Network traffic is made observable: the call state `CallSt` records the
  number of HTTP calls made and the list of forms sent, so "no network
  call" is the statement that the trace stays empty.
-/

/-- A decoded JSON claim value as stored in a `jwt.MapClaims` map.
JSON numbers decode to Go `float64`; we model the numeric values that
matter (epoch timestamps) as integers. `other` stands for any value of a
different dynamic type (arrays, objects, booleans, non-integral data). -/
inductive ClaimValue where
  | str (s : String)
  | num (n : Int)
  | other
deriving DecidableEq, Repr

/-- A parsed (unverified) JWT: its raw encoded form plus the decoded claim
map. Mirrors the fields of `jwt.Token` that the package reads (`Raw` and
`Claims` as `jwt.MapClaims`). -/
structure Token where
  raw : String
  claims : List (String × ClaimValue)
deriving DecidableEq, Repr

/-- `GetTokenExpiry` from the source: determines whether the token expires
and the time left until it expires.  The Go code reads the `exp` claim into
a `float64` defaulting to `0` when the claim is absent, errors when the
claim is present but not a number, and then treats `exp == 0` as "does not
expire"; otherwise it returns `exp - now`.  (The initial `MapClaims` type
assertion always succeeds for tokens produced by this package, so it has no
counterpart here.) -/
def GetTokenExpiry (token : Token) (now : Int) : Except String (Bool × Int) :=
  match token.claims.lookup "exp" with
  | none => .ok (false, 0)
  | some (ClaimValue.num exp) =>
      if exp = 0 then .ok (false, 0)
      else .ok (true, exp - now)
  | some _ => .error "expected floating point exp claim"

/-- The state of a `TransportWrapper` that the token logic reads and
writes: the configured credentials, scopes and endpoint URL, and the
current access/refresh token pair.  The logger, metrics, client selector
and mutex fields hold external collaborators and have no behavioural
counterpart in the embedding. -/
structure Wrapper where
  clientID : String
  clientSecret : String
  user : String
  password : String
  scopes : List String
  tokenURL : String
  agent : String
  accessToken : Option Token
  refreshToken : Option Token
deriving DecidableEq, Repr

/-- `havePassword`: a user name and a password are both configured. -/
def havePassword (w : Wrapper) : Bool :=
  w.user ≠ "" && w.password ≠ ""

/-- `haveSecret`: a client identifier and a client secret are both
configured. -/
def haveSecret (w : Wrapper) : Bool :=
  w.clientID ≠ "" && w.clientSecret ≠ ""

/-- `haveCredentials`: credentials usable to request brand new tokens. -/
def haveCredentials (w : Wrapper) : Bool :=
  havePassword w || haveSecret w

/-- `currentTokens`: the raw forms of the stored tokens, empty strings when
a token is absent. -/
def currentTokens (w : Wrapper) : String × String :=
  (match w.accessToken with | some t => t.raw | none => "",
   match w.refreshToken with | some t => t.raw | none => "")

/-- The fields of `internal.TokenResponse` read by the endpoint client:
every field is a pointer in Go, hence an `Option` here. -/
structure TokenResponse where
  error : Option String
  errorDescription : Option String
  tokenType : Option String
  accessToken : Option String
  refreshToken : Option String
deriving DecidableEq, Repr

/-- What became of the HTTP response body.  `readFailed` models a failure
of `ioutil.ReadAll`; `malformed` models a `json.Unmarshal` error, in which
case the Go code still holds a non-nil (possibly partially populated)
`TokenResponse`, carried here as `part`; `parsed` is a fully decoded
body. -/
inductive Body where
  | readFailed (msg : String)
  | malformed (part : TokenResponse) (msg : String)
  | parsed (r : TokenResponse)
deriving DecidableEq, Repr

/-- The outcome of one HTTP exchange with the token endpoint, as seen by
`sendTokenFormTimed`.  `noResponse` models `client.Do` failing to produce
any response (the status code keeps its zero value); `response` carries
the status code, the verdict of the JSON content-type check
(`internal.CheckContentType`, modelled from the spec: any non-JSON content
type is a hard error), and the body. -/
inductive HttpResult where
  | noResponse (msg : String)
  | response (code : Int) (contentTypeOk : Bool) (body : Body)
deriving DecidableEq, Repr

/-- A form-encoded POST body, as the association list of fields set on the
`url.Values`, in the order the source sets them. -/
def Form : Type := List (String × String)

instance : DecidableEq Form := by
  unfold Form
  infer_instance

/-- Observable call state threaded through the token endpoint client: the
wrapper state, the number of HTTP calls made so far, and the record of the
forms sent.  An empty trace means no network call happened. -/
structure CallSt where
  w : Wrapper
  calls : Nat
  trace : List Form
deriving DecidableEq

/-- The `(code, result, err)` triple returned by `sendTokenFormTimed` and
its callers. -/
structure Out where
  code : Int
  result : Option TokenResponse
  err : Option String
deriving DecidableEq, Repr

/-- The form sent for the resource owner password grant. -/
def passwordForm (w : Wrapper) : Form :=
  [("grant_type", "password"),
   ("client_id", w.clientID),
   ("username", w.user),
   ("password", w.password),
   ("scope", String.intercalate " " w.scopes)]

/-- The form sent for the client credentials grant. -/
def clientCredentialsForm (w : Wrapper) : Form :=
  [("grant_type", "client_credentials"),
   ("client_id", w.clientID),
   ("client_secret", w.clientSecret),
   ("scope", String.intercalate " " w.scopes)]

/-- The form sent for the refresh token grant (no scope field is set). -/
def refreshForm (w : Wrapper) : Form :=
  [("grant_type", "refresh_token"),
   ("client_id", w.clientID),
   ("client_secret", w.clientSecret),
   ("refresh_token", match w.refreshToken with | some t => t.raw | none => "")]

/-- The tail of `sendTokenFormTimed`: check that both token fields of the
body are present, decode both with the JWT parser, and only then store the
new pair into the wrapper. -/
def sendTokenFormDecode (parse : String → Except String Token)
    (r : TokenResponse) (code : Int) (s' : CallSt) : Out × CallSt :=
  match r.accessToken with
  | none => (⟨code, some r, some "no access token was received"⟩, s')
  | some sa =>
    match parse sa with
    | .error e => (⟨code, some r, some e⟩, s')
    | .ok ta =>
      match r.refreshToken with
      | none => (⟨code, some r, some "no refresh token was received"⟩, s')
      | some sr =>
        match parse sr with
        | .error e => (⟨code, some r, some e⟩, s')
        | .ok tr =>
          (⟨code, some r, none⟩,
           { s' with w := { s'.w with accessToken := some ta, refreshToken := some tr } })

/-- `sendTokenFormTimed`: sends one form to the token endpoint and parses
the response.  `parse` stands for `tokenParser.ParseUnverified`, `http`
for the external transport (indexed by how many calls were made before).
On full success — JSON content type, well-formed body with no `error`
field, status 200, token type absent or `bearer`, both tokens present and
decoded — the wrapper's token pair is replaced; on any failure the wrapper
is left untouched and an error is reported.  (`sendTokenForm` only adds
metric observations around this function, so it is not modelled
separately.) -/
def sendTokenFormTimed (parse : String → Except String Token)
    (http : Nat → HttpResult) (form : Form) (s : CallSt) : Out × CallSt :=
  let resp := http s.calls
  let s' : CallSt := { s with calls := s.calls + 1, trace := s.trace ++ [form] }
  match resp with
  | .noResponse msg => (⟨0, none, some ("can't send request: " ++ msg)⟩, s')
  | .response code ctOk body =>
    if ctOk = false then
      (⟨code, none, some "content type of response isn't JSON"⟩, s')
    else
      match body with
      | .readFailed msg => (⟨code, none, some ("can't read response: " ++ msg)⟩, s')
      | .malformed part msg =>
          (⟨code, some part, some ("can't parse JSON response: " ++ msg)⟩, s')
      | .parsed r =>
        match r.error with
        | some e =>
          match r.errorDescription with
          | some d => (⟨code, some r, some (e ++ ": " ++ d)⟩, s')
          | none => (⟨code, some r, some e⟩, s')
        | none =>
          if code ≠ 200 then
            (⟨code, some r, some ("token response status code is " ++ toString code)⟩, s')
          else
            match r.tokenType with
            | some tt =>
              if tt ≠ "bearer" then
                (⟨code, some r, some ("expected bearer token type but got " ++ tt)⟩, s')
              else sendTokenFormDecode parse r code s'
            | none => sendTokenFormDecode parse r code s'

/-- `sendRequestTokenForm`: request brand new tokens with the password
grant when a user/password pair is configured, else with the client
credentials grant, else fail without any network call. -/
def sendRequestTokenForm (parse : String → Except String Token)
    (http : Nat → HttpResult) (s : CallSt) : Out × CallSt :=
  if havePassword s.w then
    sendTokenFormTimed parse http (passwordForm s.w) s
  else if haveSecret s.w then
    sendTokenFormTimed parse http (clientCredentialsForm s.w) s
  else
    (⟨0, none, some "either password or client secret must be provided"⟩, s)

/-- `sendRefreshTokenForm`: send the refresh token grant form; if the
endpoint answers with an error response whose `error` field is
`invalid_grant` while credentials are configured, fall back to a fresh
password/client-credentials grant within the same call. -/
def sendRefreshTokenForm (parse : String → Except String Token)
    (http : Nat → HttpResult) (s : CallSt) : Out × CallSt :=
  let os := sendTokenFormTimed parse http (refreshForm s.w) s
  match os.1.err, os.1.result with
  | some _, some r =>
    if (match r.error with | some e => e | none => "") = "invalid_grant"
        && haveCredentials os.2.w then
      sendRequestTokenForm parse http os.2
    else os
  | _, _ => os

/-- The expiry status of an optional stored token: in `tokens` the
`expires`/`left` variables keep their zero values (`false`, `0`) when the
token is absent, and otherwise come from `GetTokenExpiry`, whose error
aborts the whole call. -/
def tokenExpiryOf (t : Option Token) (now : Int) : Except String (Bool × Int) :=
  match t with
  | none => .ok (false, 0)
  | some tok => GetTokenExpiry tok now

/-- The `(code, access, refresh, err)` tuple returned by one `tokens`
attempt. -/
structure TokensOut where
  code : Int
  access : String
  refresh : String
  err : Option String
deriving DecidableEq, Repr

/-- The completion shared by the refresh-grant branches of `tokens`
(steps 3 and 5): run `sendRefreshTokenForm`, propagate its error, and on
success return the (now updated) current tokens. -/
def refreshStep (parse : String → Except String Token)
    (http : Nat → HttpResult) (s : CallSt) : TokensOut × CallSt :=
  let os := sendRefreshTokenForm parse http s
  match os.1.err with
  | some e => (⟨os.1.code, "", "", some e⟩, os.2)
  | none => (⟨os.1.code, (currentTokens os.2.w).1, (currentTokens os.2.w).2, none⟩, os.2)

/-- The completion of the credentials branch of `tokens` (step 4): run
`sendRequestTokenForm`, propagate its error, and on success return the
current tokens. -/
def requestStep (parse : String → Except String Token)
    (http : Nat → HttpResult) (s : CallSt) : TokensOut × CallSt :=
  let os := sendRequestTokenForm parse http s
  match os.1.err with
  | some e => (⟨os.1.code, "", "", some e⟩, os.2)
  | none => (⟨os.1.code, (currentTokens os.2.w).1, (currentTokens os.2.w).2, none⟩, os.2)

/-- The final-fallback error message of `tokens`. -/
def exhaustionMsg : String :=
  "access and refresh tokens are unavailable or expired, and there are no " ++
    "password or client secret to request new ones"

/-- One attempt of the lifecycle decision (`tokens`, lower case, the
lock-protected body): compute both tokens' expiry status, then fall
through the five strategies in source order.  `win` is the `expiresIn`
freshness window, `now` the current time.  The returned `CallSt` exposes
the resulting wrapper state and the network trace of the attempt. -/
def tokens (parse : String → Except String Token) (http : Nat → HttpResult)
    (now win : Int) (w : Wrapper) : TokensOut × CallSt :=
  let s0 : CallSt := ⟨w, 0, []⟩
  match tokenExpiryOf w.accessToken now with
  | .error e => (⟨0, "", "", some e⟩, s0)
  | .ok al =>
    match tokenExpiryOf w.refreshToken now with
    | .error e => (⟨0, "", "", some e⟩, s0)
    | .ok rl =>
      if w.accessToken.isSome ∧ (al.1 = false ∨ al.2 ≥ win) then
        (⟨0, (currentTokens w).1, (currentTokens w).2, none⟩, s0)
      else if w.refreshToken.isSome ∧ (rl.1 = false ∨ rl.2 ≥ win) then
        refreshStep parse http s0
      else if haveCredentials w then
        requestStep parse http s0
      else if w.refreshToken.isSome ∧ rl.2 > 0 then
        refreshStep parse http s0
      else if w.accessToken.isSome ∧ al.2 > 0 then
        (⟨0, (currentTokens w).1, (currentTokens w).2, none⟩, s0)
      else
        (⟨0, "", "", some exhaustionMsg⟩, s0)

/-- How the backoff loop in `Tokens` classifies one attempt. -/
inductive RetryClass where
  | success
  | retryable
  | permanent
deriving DecidableEq, Repr

/-- The classification the `operation` closure inside `Tokens` applies to
one attempt of `tokens`: success when there is no error, a retryable
failure when the attempt's status code is at least 500
(`http.StatusInternalServerError`), and otherwise a permanent failure
(`backoff.Permanent`), which the backoff loop does not retry. -/
def tokensOperation (parse : String → Except String Token)
    (http : Nat → HttpResult) (now win : Int) (w : Wrapper) : RetryClass :=
  let o := (tokens parse http now win w).1
  match o.err with
  | none => .success
  | some _ => if o.code ≥ 500 then .retryable else .permanent

/-- Default token endpoint URL. -/
def DefaultTokenURL : String :=
  "https://sso.redhat.com/auth/realms/redhat-external/protocol/openid-connect/token"

/-- Default OpenID client identifier. -/
def DefaultClientID : String := "cloud-services"

/-- Default OpenID client secret. -/
def DefaultClientSecret : String := ""

/-- Default OpenID scopes. -/
def DefaultScopes : List String := ["openid"]

/-- ASCII lower-casing of one character: the fragment of the Unicode
simple case folding performed by `strings.EqualFold` that is exercised by
the ASCII `typ` claim values this package compares. -/
def foldChar (c : Char) : Char :=
  if c.toNat ≥ 65 ∧ c.toNat ≤ 90 then Char.ofNat (c.toNat + 32) else c

/-- `strings.EqualFold` as used on the `typ` claim values: fold both
strings character by character and compare. -/
def eqFold (a b : String) : Bool :=
  a.data.map foldChar = b.data.map foldChar

/-- The configuration accumulated by a `TransportWrapperBuilder` that the
`Build` logic reads.  The logger is an external collaborator; only its
presence matters.  The trusted CAs, insecure flag, transport wrappers and
metrics configuration feed external collaborators (HTTP client selector,
Prometheus registry) whose construction is outside the modelled scope. -/
structure BuildInput where
  haveLogger : Bool
  tokenURL : String
  clientID : String
  clientSecret : String
  user : String
  password : String
  tokens : List String
  scopes : List String
  agent : String
deriving DecidableEq, Repr

/-- The token-classification loop of `Build`: walk the pre-supplied token
strings in order, parse each one unverified, read its `typ` claim, and
store it into the access slot (`Bearer`, case-insensitively) or the
refresh slot (`Refresh` or `Offline`); a parse failure, a missing `typ`
claim, a non-string `typ` claim or an unknown type aborts with an
error.  Later tokens of the same class overwrite earlier ones. -/
def classifyTokens (parse : String → Except String Token) :
    List String → Nat → Option Token → Option Token →
    Except String (Option Token × Option Token)
  | [], _, acc, ref => .ok (acc, ref)
  | text :: rest, i, acc, ref =>
    match parse text with
    | .error e => .error ("can't parse token " ++ toString i ++ ": " ++ e)
    | .ok tok =>
      match tok.claims.lookup "typ" with
      | none => .error ("token " ++ toString i ++ " doesn't contain the typ claim")
      | some (ClaimValue.str typ) =>
        if eqFold typ "Bearer" then classifyTokens parse rest (i + 1) (some tok) ref
        else if eqFold typ "Refresh" then classifyTokens parse rest (i + 1) acc (some tok)
        else if eqFold typ "Offline" then classifyTokens parse rest (i + 1) acc (some tok)
        else .error ("type " ++ typ ++ " of token " ++ toString i ++ " is unknown")
      | some _ => .error ("claim type of token " ++ toString i ++ " has a wrong type")

/-- `Build`: validate the configuration and construct the wrapper.
`parse` stands for the JWT parser, `parseURL` for
`internal.ParseServerAddress` (only its success matters for the values the
claims touch).  The construction of the HTTP client selector and the
registration of the metrics are external collaborators excluded from the
modelled scope (spec section 1) and are modelled as succeeding. -/
def Build (parse : String → Except String Token) (parseURL : String → Bool)
    (b : BuildInput) : Except String Wrapper :=
  if b.haveLogger = false then .error "logger is mandatory"
  else
    if b.tokens = [] ∧ ¬(b.user ≠ "" ∧ b.password ≠ "") ∧
        ¬(b.clientID ≠ "" ∧ b.clientSecret ≠ "") then
      .error ("either a token, an user name and password or a client identifier " ++
        "and secret are necessary, but none has been provided")
    else
      match classifyTokens parse b.tokens 0 none none with
      | .error e => .error e
      | .ok ar =>
        let tokenURL := if b.tokenURL = "" then DefaultTokenURL else b.tokenURL
        if parseURL tokenURL = false then
          .error ("can't parse token URL " ++ tokenURL)
        else
          let clientID := if b.clientID = "" then DefaultClientID else b.clientID
          let clientSecret := if b.clientSecret = "" then DefaultClientSecret else b.clientSecret
          let scopes := if b.scopes = [] then DefaultScopes else b.scopes
          .ok { clientID := clientID
                clientSecret := clientSecret
                user := b.user
                password := b.password
                scopes := scopes
                tokenURL := tokenURL
                agent := b.agent
                accessToken := ar.1
                refreshToken := ar.2 }

/-- A pre-supplied token string is acceptable to `Build` when it parses
and carries a string `typ` claim equal (case-insensitively) to `Bearer`,
`Refresh` or `Offline`. -/
def tokenAcceptable (parse : String → Except String Token) (text : String) : Bool :=
  match parse text with
  | .error _ => false
  | .ok tok =>
    match tok.claims.lookup "typ" with
    | some (ClaimValue.str typ) =>
        eqFold typ "Bearer" || eqFold typ "Refresh" || eqFold typ "Offline"
    | some _ => false
    | none => false

/-- A parsed token is classified as an access token by `Build`: its `typ`
claim is a string equal, case-insensitively, to `Bearer`. -/
def typIsBearer (tok : Token) : Bool :=
  match tok.claims.lookup "typ" with
  | some (ClaimValue.str ty) => eqFold ty "Bearer"
  | _ => false

/-- A parsed token is classified as a refresh token by `Build`: its `typ`
claim is a string equal, case-insensitively, to `Refresh` or `Offline`. -/
def typIsRefresh (tok : Token) : Bool :=
  match tok.claims.lookup "typ" with
  | some (ClaimValue.str ty) => eqFold ty "Refresh" || eqFold ty "Offline"
  | _ => false

/-- A JWT parser oracle that rejects every string; used for scenarios in
which no token string ever has to be decoded. -/
def rejectParse : String → Except String Token :=
  fun _ => .error "unreachable"

/-- A transport oracle every call of which fails to produce a response
(the connection cannot even be opened). -/
def unreachableHttp : Nat → HttpResult :=
  fun _ => .noResponse "connection refused"

/-- A wrapper holding only a never-expiring refresh token and no static
credentials. -/
def refreshOnlyWrapper : Wrapper :=
  ⟨"", "", "", "", ["openid"], "", "", none,
    some ⟨"R", [("typ", ClaimValue.str "Refresh")]⟩⟩

/-- A wrapper holding a never-expiring access token together with a
refresh token whose `exp` claim is a string rather than a number. -/
def badRefreshExpWrapper : Wrapper :=
  ⟨"", "", "", "", ["openid"], "", "", some ⟨"A", []⟩,
    some ⟨"R", [("exp", ClaimValue.str "soon")]⟩⟩

/-- A wrapper holding a never-expiring access token and a never-expiring
refresh token. -/
def freshPairWrapper : Wrapper :=
  ⟨"", "", "", "", ["openid"], "", "", some ⟨"A", []⟩,
    some ⟨"R", [("typ", ClaimValue.str "Refresh")]⟩⟩

/-- A wrapper with no tokens and no static credentials at all. -/
def emptyWrapper : Wrapper :=
  ⟨"", "", "", "", ["openid"], "", "", none, none⟩

/-- A wrapper configured with a user name and password and holding a
never-expiring refresh token. -/
def passwordWrapper : Wrapper :=
  ⟨"cid", "", "u", "p", ["openid"], "", "", none,
    some ⟨"R", [("typ", ClaimValue.str "Refresh")]⟩⟩

/-- An endpoint error body whose `error` field is `invalid_grant`. -/
def invalidGrantResponse : TokenResponse :=
  ⟨some "invalid_grant", none, none, none, none⟩

/-- A transport oracle answering the first call with an `invalid_grant`
error response and failing afterwards. -/
def invalidGrantThenFailHttp : Nat → HttpResult :=
  fun n =>
    if n = 0 then .response 400 true (.parsed invalidGrantResponse)
    else .noResponse "down"

/-- A pre-supplied token whose `typ` claim is `Offline`, raw form `O1`. -/
def offlineTok1 : Token := ⟨"O1", [("typ", ClaimValue.str "Offline")]⟩

/-- A pre-supplied token whose `typ` claim is `Offline`, raw form `O2`. -/
def offlineTok2 : Token := ⟨"O2", [("typ", ClaimValue.str "Offline")]⟩

/-- A pre-supplied token whose `typ` claim is `Bearer`, raw form `B`. -/
def bearerTok : Token := ⟨"B", [("typ", ClaimValue.str "Bearer")]⟩

/-- A pre-supplied token whose `typ` claim is `Offline`, raw form `O`. -/
def offlineTok : Token := ⟨"O", [("typ", ClaimValue.str "Offline")]⟩

/-- A JWT parser oracle decoding exactly the strings `O1` and `O2`, both
to `Offline`-typed tokens. -/
def twoOfflineParse : String → Except String Token :=
  fun s =>
    if s = "O1" then .ok offlineTok1
    else if s = "O2" then .ok offlineTok2
    else .error "unknown token"

/-- A JWT parser oracle decoding exactly the strings `B` (to a
`Bearer`-typed token) and `O` (to an `Offline`-typed token). -/
def bearerOfflineParse : String → Except String Token :=
  fun s =>
    if s = "B" then .ok bearerTok
    else if s = "O" then .ok offlineTok
    else .error "unknown token"

/-- A URL parser oracle accepting every address. -/
def anyURL : String → Bool := fun _ => true

/-- Builder configuration pre-supplying the two `Offline` tokens `O1` and
`O2`, in that order. -/
def twoOfflineInput : BuildInput :=
  ⟨true, "", "", "", "", "", ["O1", "O2"], [], ""⟩

/-- Builder configuration pre-supplying the `Bearer` token `B` and the
`Offline` token `O`. -/
def bearerOfflineInput : BuildInput :=
  ⟨true, "", "", "", "", "", ["B", "O"], [], ""⟩

/-- The wrapper `Build` constructs from `bearerOfflineInput`: defaults
filled in, token `B` stored as access and token `O` as refresh. -/
def builtBearerOffline : Wrapper :=
  ⟨DefaultClientID, DefaultClientSecret, "", "", DefaultScopes,
    DefaultTokenURL, "", some bearerTok, some offlineTok⟩

/-- The decode tail either succeeds with both tokens decoded and stored,
or fails leaving the call state untouched. -/
theorem sendTokenFormDecode_cases (parse : String → Except String Token)
    (r : TokenResponse) (code : Int) (s' : CallSt) :
    (∃ sa sr ta tr, r.accessToken = some sa ∧ r.refreshToken = some sr ∧
        parse sa = .ok ta ∧ parse sr = .ok tr ∧
        sendTokenFormDecode parse r code s' =
          (⟨code, some r, none⟩,
           { s' with w := { s'.w with accessToken := some ta, refreshToken := some tr } })) ∨
    ((sendTokenFormDecode parse r code s').1.err.isSome = true ∧
      (sendTokenFormDecode parse r code s').2 = s') := by
  cases hsa : r.accessToken with
  | none => exact Or.inr (by simp [sendTokenFormDecode, hsa])
  | some sa =>
    cases hpa : parse sa with
    | error e => exact Or.inr (by simp [sendTokenFormDecode, hsa, hpa])
    | ok ta =>
      cases hsr : r.refreshToken with
      | none => exact Or.inr (by simp [sendTokenFormDecode, hsa, hpa, hsr])
      | some sr =>
        cases hpr : parse sr with
        | error e => exact Or.inr (by simp [sendTokenFormDecode, hsa, hpa, hsr, hpr])
        | ok tr =>
          exact Or.inl ⟨sa, sr, ta, tr, rfl, rfl, hpa, hpr, by
            simp [sendTokenFormDecode, hsa, hpa, hsr, hpr]⟩

/-- The decode tail never changes call count or trace. -/
theorem sendTokenFormDecode_st (parse : String → Except String Token)
    (r : TokenResponse) (code : Int) (s' : CallSt) :
    (sendTokenFormDecode parse r code s').2.calls = s'.calls ∧
    (sendTokenFormDecode parse r code s').2.trace = s'.trace := by
  cases hsa : r.accessToken with
  | none => simp [sendTokenFormDecode, hsa]
  | some sa =>
    cases hpa : parse sa with
    | error e => simp [sendTokenFormDecode, hsa, hpa]
    | ok ta =>
      cases hsr : r.refreshToken with
      | none => simp [sendTokenFormDecode, hsa, hpa, hsr]
      | some sr =>
        cases hpr : parse sr with
        | error e => simp [sendTokenFormDecode, hsa, hpa, hsr, hpr]
        | ok tr => simp [sendTokenFormDecode, hsa, hpa, hsr, hpr]

/-- The decode tail, seen through its error flag and wrapper field:
either it fails with the wrapper untouched, or it succeeds with both
token fields present, decoded and stored. -/
theorem sendTokenFormDecode_post (parse : String → Except String Token)
    (r : TokenResponse) (code : Int) (s' : CallSt) :
    ((sendTokenFormDecode parse r code s').1.err.isSome = true ∧
      (sendTokenFormDecode parse r code s').2.w = s'.w) ∨
    ((sendTokenFormDecode parse r code s').1.err = none ∧
      ∃ sa sr ta tr,
        r.accessToken = some sa ∧ r.refreshToken = some sr ∧
        parse sa = .ok ta ∧ parse sr = .ok tr ∧
        (sendTokenFormDecode parse r code s').2.w =
          { s'.w with accessToken := some ta, refreshToken := some tr }) := by
  rcases sendTokenFormDecode_cases parse r code s' with
    ⟨sa, sr, ta, tr, h1, h2, h3, h4, h5⟩ | ⟨h1, h2⟩
  · right
    rw [h5]
    exact ⟨rfl, sa, sr, ta, tr, h1, h2, h3, h4, rfl⟩
  · left
    rw [h2]
    exact ⟨h1, rfl⟩

/-- One send through `sendTokenFormTimed` makes exactly one HTTP call,
appends exactly the sent form to the trace, and either succeeds — with a
200 JSON response carrying no error field and both token fields, both of
which decode, and the wrapper's pair replaced by the decoded pair — or
fails with an error reported and the wrapper untouched. -/
theorem sendTokenFormTimed_spec (parse : String → Except String Token)
    (http : Nat → HttpResult) (form : Form) (s : CallSt) :
    (sendTokenFormTimed parse http form s).2.calls = s.calls + 1 ∧
    (sendTokenFormTimed parse http form s).2.trace = s.trace ++ [form] ∧
    (((sendTokenFormTimed parse http form s).1.err.isSome = true ∧
        (sendTokenFormTimed parse http form s).2.w = s.w) ∨
      ((sendTokenFormTimed parse http form s).1.err = none ∧
        ∃ r sa sr ta tr,
          http s.calls = .response 200 true (.parsed r) ∧
          r.error = none ∧
          (r.tokenType = none ∨ r.tokenType = some "bearer") ∧
          r.accessToken = some sa ∧ r.refreshToken = some sr ∧
          parse sa = .ok ta ∧ parse sr = .ok tr ∧
          (sendTokenFormTimed parse http form s).2.w =
            { s.w with accessToken := some ta, refreshToken := some tr })) := by
  cases hresp : http s.calls with
  | noResponse msg =>
    have heq : sendTokenFormTimed parse http form s =
        (⟨0, none, some ("can't send request: " ++ msg)⟩,
         { s with calls := s.calls + 1, trace := s.trace ++ [form] }) := by
      simp [sendTokenFormTimed, hresp]
    rw [heq]
    exact ⟨rfl, rfl, Or.inl ⟨rfl, rfl⟩⟩
  | response code ctOk body =>
    cases ctOk with
    | false =>
      have heq : sendTokenFormTimed parse http form s =
          (⟨code, none, some "content type of response isn't JSON"⟩,
           { s with calls := s.calls + 1, trace := s.trace ++ [form] }) := by
        simp [sendTokenFormTimed, hresp]
      rw [heq]
      exact ⟨rfl, rfl, Or.inl ⟨rfl, rfl⟩⟩
    | true =>
      cases body with
      | readFailed msg =>
        have heq : sendTokenFormTimed parse http form s =
            (⟨code, none, some ("can't read response: " ++ msg)⟩,
             { s with calls := s.calls + 1, trace := s.trace ++ [form] }) := by
          simp [sendTokenFormTimed, hresp]
        rw [heq]
        exact ⟨rfl, rfl, Or.inl ⟨rfl, rfl⟩⟩
      | malformed part msg =>
        have heq : sendTokenFormTimed parse http form s =
            (⟨code, some part, some ("can't parse JSON response: " ++ msg)⟩,
             { s with calls := s.calls + 1, trace := s.trace ++ [form] }) := by
          simp [sendTokenFormTimed, hresp]
        rw [heq]
        exact ⟨rfl, rfl, Or.inl ⟨rfl, rfl⟩⟩
      | parsed r =>
        cases herr : r.error with
        | some e =>
          cases hd : r.errorDescription with
          | some d =>
            have heq : sendTokenFormTimed parse http form s =
                (⟨code, some r, some (e ++ ": " ++ d)⟩,
                 { s with calls := s.calls + 1, trace := s.trace ++ [form] }) := by
              simp [sendTokenFormTimed, hresp, herr, hd]
            rw [heq]
            exact ⟨rfl, rfl, Or.inl ⟨rfl, rfl⟩⟩
          | none =>
            have heq : sendTokenFormTimed parse http form s =
                (⟨code, some r, some e⟩,
                 { s with calls := s.calls + 1, trace := s.trace ++ [form] }) := by
              simp [sendTokenFormTimed, hresp, herr, hd]
            rw [heq]
            exact ⟨rfl, rfl, Or.inl ⟨rfl, rfl⟩⟩
        | none =>
          by_cases hc : code = 200
          · subst hc
            have hdecode : (r.tokenType = none ∨ r.tokenType = some "bearer") →
                ∀ hq : sendTokenFormTimed parse http form s =
                  sendTokenFormDecode parse r 200
                    { s with calls := s.calls + 1, trace := s.trace ++ [form] },
                (sendTokenFormTimed parse http form s).2.calls = s.calls + 1 ∧
                (sendTokenFormTimed parse http form s).2.trace = s.trace ++ [form] ∧
                (((sendTokenFormTimed parse http form s).1.err.isSome = true ∧
                    (sendTokenFormTimed parse http form s).2.w = s.w) ∨
                  ((sendTokenFormTimed parse http form s).1.err = none ∧
                    ∃ r' sa sr ta tr,
                      HttpResult.response 200 true (Body.parsed r)
                        = HttpResult.response 200 true (Body.parsed r') ∧
                      r'.error = none ∧
                      (r'.tokenType = none ∨ r'.tokenType = some "bearer") ∧
                      r'.accessToken = some sa ∧ r'.refreshToken = some sr ∧
                      parse sa = .ok ta ∧ parse sr = .ok tr ∧
                      (sendTokenFormTimed parse http form s).2.w =
                        { s.w with accessToken := some ta, refreshToken := some tr })) := by
              intro htok hq
              rw [hq]
              have hst := sendTokenFormDecode_st parse r 200
                { s with calls := s.calls + 1, trace := s.trace ++ [form] }
              have hpost := sendTokenFormDecode_post parse r 200
                { s with calls := s.calls + 1, trace := s.trace ++ [form] }
              refine ⟨hst.1, hst.2, ?_⟩
              rcases hpost with ⟨h1, h2⟩ | ⟨h1, sa, sr, ta, tr, h2, h3, h4, h5, h6⟩
              · exact Or.inl ⟨h1, h2⟩
              · exact Or.inr ⟨h1, r, sa, sr, ta, tr, rfl, herr, htok, h2, h3, h4, h5, h6⟩
            cases htt : r.tokenType with
            | some tt =>
              by_cases hb : tt = "bearer"
              · subst hb
                exact hdecode (Or.inr htt) (by simp [sendTokenFormTimed, hresp, herr, htt])
              · have heq : sendTokenFormTimed parse http form s =
                    (⟨200, some r, some ("expected bearer token type but got " ++ tt)⟩,
                     { s with calls := s.calls + 1, trace := s.trace ++ [form] }) := by
                  simp [sendTokenFormTimed, hresp, herr, htt, hb]
                rw [heq]
                exact ⟨rfl, rfl, Or.inl ⟨rfl, rfl⟩⟩
            | none =>
              exact hdecode (Or.inl htt) (by simp [sendTokenFormTimed, hresp, herr, htt])
          · have heq : sendTokenFormTimed parse http form s =
                (⟨code, some r, some ("token response status code is " ++ toString code)⟩,
                 { s with calls := s.calls + 1, trace := s.trace ++ [form] }) := by
              simp [sendTokenFormTimed, hresp, herr, hc]
            rw [heq]
            exact ⟨rfl, rfl, Or.inl ⟨rfl, rfl⟩⟩

/-- With credentials configured, `sendRequestTokenForm` reduces to one
timed send of the password form (password wins) or of the client
credentials form. -/
theorem sendRequestTokenForm_creds (parse : String → Except String Token)
    (http : Nat → HttpResult) (s : CallSt)
    (hcred : haveCredentials s.w = true) :
    sendRequestTokenForm parse http s =
      sendTokenFormTimed parse http
        (if havePassword s.w = true then passwordForm s.w
         else clientCredentialsForm s.w) s := by
  by_cases hp : havePassword s.w = true
  · simp [sendRequestTokenForm, hp]
  · have hs : haveSecret s.w = true := by
      unfold haveCredentials at hcred
      rcases Bool.or_eq_true_iff.mp hcred with h | h
      · exact absurd h hp
      · exact h
    simp [sendRequestTokenForm, hp, hs]

/-- Without credentials, `sendRefreshTokenForm` never falls back: it is
exactly one timed send of the refresh form. -/
theorem sendRefreshTokenForm_no_creds (parse : String → Except String Token)
    (http : Nat → HttpResult) (s : CallSt)
    (h : haveCredentials s.w = false) :
    sendRefreshTokenForm parse http s =
      sendTokenFormTimed parse http (refreshForm s.w) s := by
  obtain ⟨o, st, hos⟩ : ∃ o st,
      sendTokenFormTimed parse http (refreshForm s.w) s = (o, st) := ⟨_, _, rfl⟩
  have hspec := (sendTokenFormTimed_spec parse http (refreshForm s.w) s).2.2
  rw [hos] at hspec
  unfold sendRefreshTokenForm
  rw [hos]
  cases herr : o.err with
  | none => cases hres : o.result <;> simp [herr, hres]
  | some e =>
    cases hres : o.result with
    | none => simp [herr, hres]
    | some r =>
      have hw : st.w = s.w := by
        rcases hspec with ⟨h1, h2⟩ | ⟨h1, -⟩
        · exact h2
        · rw [herr] at h1
          cases h1
      simp [herr, hres, hw, h]

/-- The final call state of `refreshStep` is that of the underlying
`sendRefreshTokenForm`. -/
theorem refreshStep_snd (parse : String → Except String Token)
    (http : Nat → HttpResult) (s : CallSt) :
    (refreshStep parse http s).2 = (sendRefreshTokenForm parse http s).2 := by
  obtain ⟨o, st, hos⟩ : ∃ o st,
      sendRefreshTokenForm parse http s = (o, st) := ⟨_, _, rfl⟩
  unfold refreshStep
  rw [hos]
  cases herr : o.err <;> simp [herr]

/-- A token whose `typ` claim classifies it as `Bearer` is not classified
as `Refresh`/`Offline`. -/
theorem typ_exclusive (t : Token) (hb : typIsBearer t = true) :
    typIsRefresh t = false := by
  unfold typIsBearer at hb
  unfold typIsRefresh
  cases h : t.claims.lookup "typ" with
  | none => rfl
  | some cv =>
    rw [h] at hb
    cases cv with
    | str ty =>
      have hb' : ty.data.map foldChar = "Bearer".data.map foldChar := by
        have h2 : eqFold ty "Bearer" = true := hb
        unfold eqFold at h2
        exact of_decide_eq_true h2
      show (eqFold ty "Refresh" || eqFold ty "Offline") = false
      unfold eqFold
      rw [hb']
      decide
    | num n => rfl
    | other => rfl

/-- C3 (counterexample): a token that does carry an `exp` claim, with
numeric value 0, is reported by `GetTokenExpiry` at time 5 as not
expiring with zero remaining lifetime — not, as the claim states for
every token carrying an `exp` claim, as expiring with remaining
`exp - t = 0 - 5`. -/
theorem getTokenExpiry_exp_zero_cx :
    (Token.mk "t" [("exp", ClaimValue.num 0)]).claims.lookup "exp"
      = some (ClaimValue.num 0) ∧
    GetTokenExpiry (Token.mk "t" [("exp", ClaimValue.num 0)]) 5 = .ok (false, 0) ∧
    GetTokenExpiry (Token.mk "t" [("exp", ClaimValue.num 0)]) 5 ≠ .ok (true, 0 - 5) := by
  refine ⟨rfl, rfl, ?_⟩
  intro h
  simp [GetTokenExpiry] at h

/-- C3 (amended): for every parsed token and time `t`, `GetTokenExpiry`
returns `expires = true` and `remaining = exp - t` when the token carries
a numeric `exp` claim with nonzero value, and `expires = false` with
`remaining = 0` when the token carries no `exp` claim or carries it with
numeric value 0. -/
theorem getTokenExpiry_exp_claims (tok : Token) (t e : Int) :
    (tok.claims.lookup "exp" = some (ClaimValue.num e) → e ≠ 0 →
      GetTokenExpiry tok t = .ok (true, e - t)) ∧
    (tok.claims.lookup "exp" = none ∨
        tok.claims.lookup "exp" = some (ClaimValue.num 0) →
      GetTokenExpiry tok t = .ok (false, 0)) := by
  constructor
  · intro h hne
    simp [GetTokenExpiry, h, hne]
  · rintro (h | h) <;> simp [GetTokenExpiry, h]

/-- C3 (witness): the amended statement evaluated on a token expiring at
100 seen at time 5 and on a token with no `exp` claim. -/
theorem getTokenExpiry_exp_claims_witness :
    GetTokenExpiry (Token.mk "t" [("exp", ClaimValue.num 100)]) 5 = .ok (true, 100 - 5) ∧
    GetTokenExpiry (Token.mk "t" []) 5 = .ok (false, 0) := by
  constructor
  · exact (getTokenExpiry_exp_claims (Token.mk "t" [("exp", ClaimValue.num 100)]) 5 100).1
      rfl (by decide)
  · exact (getTokenExpiry_exp_claims (Token.mk "t" []) 5 0).2 (Or.inl rfl)

/-- C10: `GetTokenExpiry` reports `expires = false` and `remaining = 0`
not only when the `exp` claim is absent but also when it is present with
numeric value 0, so a token explicitly stamped `exp = 0` is treated as
never expiring rather than as long expired. -/
theorem getTokenExpiry_zero_never_expires (tok : Token) (t : Int)
    (h : tok.claims.lookup "exp" = some (ClaimValue.num 0) ∨
      tok.claims.lookup "exp" = none) :
    GetTokenExpiry tok t = .ok (false, 0) := by
  rcases h with h | h <;> simp [GetTokenExpiry, h]

/-- C10 (witness): a token stamped `exp = 0` observed long after the
epoch still does not expire. -/
theorem getTokenExpiry_zero_never_expires_witness :
    GetTokenExpiry (Token.mk "epoch" [("exp", ClaimValue.num 0)]) 1000000
      = .ok (false, 0) :=
  getTokenExpiry_zero_never_expires (Token.mk "epoch" [("exp", ClaimValue.num 0)])
    1000000 (Or.inl rfl)

/-- C1 (counterexample): with a never-expiring refresh token and no
credentials, against a transport that fails to produce any response, the
attempt makes one network call (the refresh form is sent), the call fails
to produce a response, the attempt fails — and the backoff classification
is `permanent`, so the failure is not retried, although the claim states
that a network call failing to produce a response is retried. -/
theorem tokensOperation_network_failure_cx :
    unreachableHttp 0 = HttpResult.noResponse "connection refused" ∧
    (tokens rejectParse unreachableHttp 0 60 refreshOnlyWrapper).1.err.isSome = true ∧
    (tokens rejectParse unreachableHttp 0 60 refreshOnlyWrapper).2.trace
      = [refreshForm refreshOnlyWrapper] ∧
    tokensOperation rejectParse unreachableHttp 0 60 refreshOnlyWrapper
      = RetryClass.permanent := by
  refine ⟨rfl, ?_, ?_, ?_⟩ <;> rfl

/-- C1 (amended): an attempt of the backoff loop inside `Tokens` is
classified retryable exactly when it failed and the attempt's endpoint
status code is at least 500; every failure whose status code is below 500
— including parsed 4xx-class endpoint errors and network calls that
produced no response (code 0) — is classified permanent and not
retried. -/
theorem tokensOperation_retry_iff (parse : String → Except String Token)
    (http : Nat → HttpResult) (now win : Int) (w : Wrapper) :
    (tokensOperation parse http now win w = RetryClass.retryable ↔
      ((tokens parse http now win w).1.err.isSome = true ∧
        (tokens parse http now win w).1.code ≥ 500)) ∧
    ((tokens parse http now win w).1.err.isSome = true →
      (tokens parse http now win w).1.code < 500 →
      tokensOperation parse http now win w = RetryClass.permanent) := by
  cases herr : (tokens parse http now win w).1.err with
  | none =>
    constructor
    · constructor
      · intro h
        have hop : tokensOperation parse http now win w = RetryClass.success := by
          simp [tokensOperation, herr]
        rw [hop] at h
        cases h
      · rintro ⟨h1, -⟩
        simp at h1
    · intro h1
      simp at h1
  | some e =>
    by_cases hcode : (tokens parse http now win w).1.code ≥ 500
    · constructor
      · constructor
        · intro _
          exact ⟨rfl, hcode⟩
        · intro _
          simp [tokensOperation, herr, hcode]
      · intro _ h3
        exact absurd h3 (not_lt.mpr hcode)
    · constructor
      · constructor
        · intro h
          have hop : tokensOperation parse http now win w = RetryClass.permanent := by
            simp [tokensOperation, herr, hcode]
          rw [hop] at h
          cases h
        · rintro ⟨-, h2⟩
          exact absurd h2 hcode
      · intro _ _
        simp [tokensOperation, herr, hcode]

/-- C1 (witness): an endpoint failure with status 503 is classified
retryable, via the amended equivalence. -/
theorem tokensOperation_retry_iff_witness :
    tokensOperation rejectParse
      (fun _ => HttpResult.response 503 true
        (Body.parsed ⟨some "server oops", none, none, none, none⟩))
      0 60 refreshOnlyWrapper = RetryClass.retryable :=
  (tokensOperation_retry_iff rejectParse
    (fun _ => HttpResult.response 503 true
      (Body.parsed ⟨some "server oops", none, none, none, none⟩))
    0 60 refreshOnlyWrapper).1.mpr ⟨by rfl, by decide⟩

/-- C2 (counterexample): the wrapper stores a never-expiring access token
with raw form `A` (no `exp` claim, so the claim's hypothesis holds), yet
because the stored refresh token's `exp` claim is a string, the expiry
bookkeeping at the top of `tokens` fails and the call returns an error
with empty token strings instead of the stored pair. -/
theorem tokens_fresh_access_cx :
    badRefreshExpWrapper.accessToken = some (Token.mk "A" []) ∧
    (Token.mk "A" []).claims.lookup "exp" = none ∧
    (tokens rejectParse unreachableHttp 0 60 badRefreshExpWrapper).1
      = ⟨0, "", "", some "expected floating point exp claim"⟩ ∧
    (tokens rejectParse unreachableHttp 0 60 badRefreshExpWrapper).1.access
      ≠ "A" := by
  refine ⟨rfl, rfl, rfl, by decide⟩

/-- C2 (amended): whenever the stored access token carries no `exp` claim
or carries a numeric one with remaining lifetime at least the freshness
window, and the stored refresh token (if any) has a well-formed — absent
or numeric — `exp` claim, `tokens` returns the stored pair with no error,
makes no network call, and leaves the wrapper unchanged. -/
theorem tokens_fresh_access (parse : String → Except String Token)
    (http : Nat → HttpResult) (now win : Int) (w : Wrapper)
    (a : Token) (rl : Bool × Int)
    (hA : w.accessToken = some a)
    (hfresh : a.claims.lookup "exp" = none ∨
      ∃ e, a.claims.lookup "exp" = some (ClaimValue.num e) ∧ e - now ≥ win)
    (hR : tokenExpiryOf w.refreshToken now = .ok rl) :
    tokens parse http now win w =
      (⟨0, a.raw, (currentTokens w).2, none⟩, ⟨w, 0, []⟩) := by
  have hexp : ∃ p : Bool × Int,
      GetTokenExpiry a now = .ok p ∧ (p.1 = false ∨ p.2 ≥ win) := by
    rcases hfresh with h | ⟨e, he, hge⟩
    · exact ⟨(false, 0), by simp [GetTokenExpiry, h], Or.inl rfl⟩
    · by_cases h0 : e = 0
      · exact ⟨(false, 0), by simp [GetTokenExpiry, he, h0], Or.inl rfl⟩
      · exact ⟨(true, e - now), by simp [GetTokenExpiry, he, h0], Or.inr hge⟩
  obtain ⟨p, hp, hcond⟩ := hexp
  have hAe : tokenExpiryOf w.accessToken now = .ok p := by
    rw [hA]
    simpa [tokenExpiryOf] using hp
  have hfull : w.accessToken.isSome ∧ (p.1 = false ∨ p.2 ≥ win) :=
    ⟨by simp [hA], hcond⟩
  unfold tokens
  simp only [hAe, hR]
  rw [if_pos hfull]
  simp [currentTokens, hA]

/-- C2 (witness): the amended statement evaluated on a wrapper holding a
never-expiring access token `A` and a well-formed refresh token `R`: the
stored pair comes back, the trace stays empty and the wrapper is
unchanged. -/
theorem tokens_fresh_access_witness :
    tokens rejectParse unreachableHttp 0 60 freshPairWrapper =
      (⟨0, "A", "R", none⟩, ⟨freshPairWrapper, 0, []⟩) := by
  have h := tokens_fresh_access rejectParse unreachableHttp 0 60 freshPairWrapper
    (Token.mk "A" []) (false, 0) rfl (Or.inl rfl) rfl
  simpa [currentTokens, freshPairWrapper] using h

/-- C5: every grant execution either succeeds end to end — the response is
a 200 JSON body with no error field, an absent or `bearer` token type, and
both token fields present and decoded — in which case the stored
access/refresh pair is atomically replaced by the decoded pair, or fails,
in which case an error is reported and the wrapper (in particular both
stored token fields) keeps its prior values. -/
theorem sendTokenFormTimed_atomic (parse : String → Except String Token)
    (http : Nat → HttpResult) (form : Form) (s : CallSt) :
    (((sendTokenFormTimed parse http form s).1.err.isSome = true ∧
        (sendTokenFormTimed parse http form s).2.w = s.w) ∨
      ((sendTokenFormTimed parse http form s).1.err = none ∧
        ∃ r sa sr ta tr,
          http s.calls = .response 200 true (.parsed r) ∧
          r.error = none ∧
          (r.tokenType = none ∨ r.tokenType = some "bearer") ∧
          r.accessToken = some sa ∧ r.refreshToken = some sr ∧
          parse sa = .ok ta ∧ parse sr = .ok tr ∧
          (sendTokenFormTimed parse http form s).2.w =
            { s.w with accessToken := some ta, refreshToken := some tr })) :=
  (sendTokenFormTimed_spec parse http form s).2.2

/-- C8: for a JSON 200-or-not response with a well-formed body, the parsed
outcome is an error whenever the body's `error` field is present (with
message `error: error_description` when the description is present, else
just `error`), whenever the status code is not 200, whenever a
`token_type` is present that differs from `bearer`, and whenever the
`access_token` or `refresh_token` field is absent. -/
theorem sendTokenFormTimed_error_outcomes (parse : String → Except String Token)
    (http : Nat → HttpResult) (form : Form) (s : CallSt)
    (code : Int) (r : TokenResponse)
    (hresp : http s.calls = HttpResult.response code true (Body.parsed r)) :
    (∀ e, r.error = some e →
      (sendTokenFormTimed parse http form s).1.err =
        some (match r.errorDescription with
              | some d => e ++ ": " ++ d
              | none => e)) ∧
    (code ≠ 200 →
      ((sendTokenFormTimed parse http form s).1.err).isSome = true) ∧
    (∀ tt, r.tokenType = some tt → tt ≠ "bearer" →
      ((sendTokenFormTimed parse http form s).1.err).isSome = true) ∧
    ((r.accessToken = none ∨ r.refreshToken = none) →
      ((sendTokenFormTimed parse http form s).1.err).isSome = true) := by
  have hspec := (sendTokenFormTimed_spec parse http form s).2.2
  refine ⟨?_, ?_, ?_, ?_⟩
  · intro e he
    cases hd : r.errorDescription with
    | some d => simp [sendTokenFormTimed, hresp, he, hd]
    | none => simp [sendTokenFormTimed, hresp, he, hd]
  · intro hc
    rcases hspec with ⟨h1, -⟩ | ⟨-, r', sa, sr, ta, tr, h2, -⟩
    · exact h1
    · rw [hresp] at h2
      cases h2
      exact absurd rfl hc
  · intro tt htt hneq
    rcases hspec with ⟨h1, -⟩ | ⟨-, r', sa, sr, ta, tr, h2, -, h3, -⟩
    · exact h1
    · rw [hresp] at h2
      injection h2 with h2a h2b h2c
      injection h2c with h2d
      subst h2d
      rcases h3 with h3 | h3
      · rw [htt] at h3
        cases h3
      · rw [htt] at h3
        injection h3 with h3a
        exact absurd h3a hneq
  · rintro (hna | hnr)
    · rcases hspec with ⟨h1, -⟩ | ⟨-, r', sa, sr, ta, tr, h2, -, -, h4, -⟩
      · exact h1
      · rw [hresp] at h2
        injection h2 with h2a h2b h2c
        injection h2c with h2d
        subst h2d
        rw [hna] at h4
        cases h4
    · rcases hspec with ⟨h1, -⟩ | ⟨-, r', sa, sr, ta, tr, h2, -, -, -, h5, -⟩
      · exact h1
      · rw [hresp] at h2
        injection h2 with h2a h2b h2c
        injection h2c with h2d
        subst h2d
        rw [hnr] at h5
        cases h5

/-- C8 (witness): a 404 response whose body carries an error field with
description, a non-`bearer` token type and no token fields is an error on
all four counts, with the composed `error: description` message. -/
theorem sendTokenFormTimed_error_outcomes_witness :
    ((sendTokenFormTimed rejectParse
        (fun _ => HttpResult.response 404 true
          (Body.parsed ⟨some "bad_request", some "missing stuff", some "mac",
            none, none⟩))
        ([] : Form) ⟨emptyWrapper, 0, []⟩).1.err
      = some "bad_request: missing stuff") ∧
    ((sendTokenFormTimed rejectParse
        (fun _ => HttpResult.response 404 true
          (Body.parsed ⟨some "bad_request", some "missing stuff", some "mac",
            none, none⟩))
        ([] : Form) ⟨emptyWrapper, 0, []⟩).1.err).isSome = true := by
  have h := sendTokenFormTimed_error_outcomes rejectParse
    (fun _ => HttpResult.response 404 true
      (Body.parsed ⟨some "bad_request", some "missing stuff", some "mac",
        none, none⟩))
    ([] : Form) ⟨emptyWrapper, 0, []⟩ 404
    ⟨some "bad_request", some "missing stuff", some "mac", none, none⟩ rfl
  refine ⟨?_, h.2.1 (by decide)⟩
  have h1 := h.1 "bad_request" rfl
  simpa using h1

/-- C4: when the refresh grant is answered with a parsed body whose
`error` field is `invalid_grant` while static credentials are configured,
`sendRefreshTokenForm` performs exactly one follow-up password or
client-credentials grant within the same call — the final outcome is that
of `sendRequestTokenForm` run from the post-refresh state, exactly one
more HTTP call is made (two in total), and the trace records the refresh
form followed by the password form (password wins) or the client
credentials form. -/
theorem sendRefreshTokenForm_invalid_grant (parse : String → Except String Token)
    (http : Nat → HttpResult) (s : CallSt) (c : Int) (r : TokenResponse)
    (hresp : http s.calls = HttpResult.response c true (Body.parsed r))
    (herr : r.error = some "invalid_grant")
    (hcred : haveCredentials s.w = true) :
    sendRefreshTokenForm parse http s =
      sendRequestTokenForm parse http
        ⟨s.w, s.calls + 1, s.trace ++ [refreshForm s.w]⟩ ∧
    (sendRefreshTokenForm parse http s).2.calls = s.calls + 2 ∧
    (sendRefreshTokenForm parse http s).2.trace =
      s.trace ++ [refreshForm s.w,
        if havePassword s.w = true then passwordForm s.w
        else clientCredentialsForm s.w] := by
  have hfirst : ∃ m, sendTokenFormTimed parse http (refreshForm s.w) s =
      (⟨c, some r, some m⟩, ⟨s.w, s.calls + 1, s.trace ++ [refreshForm s.w]⟩) := by
    cases hd : r.errorDescription with
    | some d =>
      exact ⟨"invalid_grant" ++ ": " ++ d, by
        simp [sendTokenFormTimed, hresp, herr, hd]⟩
    | none =>
      exact ⟨"invalid_grant", by
        simp [sendTokenFormTimed, hresp, herr, hd]⟩
  obtain ⟨m, hfirst⟩ := hfirst
  have heq : sendRefreshTokenForm parse http s =
      sendRequestTokenForm parse http
        ⟨s.w, s.calls + 1, s.trace ++ [refreshForm s.w]⟩ := by
    unfold sendRefreshTokenForm
    rw [hfirst]
    simp [herr, hcred]
  refine ⟨heq, ?_, ?_⟩
  · rw [heq, sendRequestTokenForm_creds parse http
      ⟨s.w, s.calls + 1, s.trace ++ [refreshForm s.w]⟩ hcred]
    have := (sendTokenFormTimed_spec parse http
      (if havePassword s.w = true then passwordForm s.w
       else clientCredentialsForm s.w)
      ⟨s.w, s.calls + 1, s.trace ++ [refreshForm s.w]⟩).1
    simpa using this
  · rw [heq, sendRequestTokenForm_creds parse http
      ⟨s.w, s.calls + 1, s.trace ++ [refreshForm s.w]⟩ hcred]
    have := (sendTokenFormTimed_spec parse http
      (if havePassword s.w = true then passwordForm s.w
       else clientCredentialsForm s.w)
      ⟨s.w, s.calls + 1, s.trace ++ [refreshForm s.w]⟩).2.1
    simpa using this

/-- C4 (witness): a wrapper with a user/password pair whose refresh grant
is answered `invalid_grant` falls back to exactly one password grant: two
calls in total, the refresh form then the password form, and the final
outcome is that of the follow-up request. -/
theorem sendRefreshTokenForm_invalid_grant_witness :
    sendRefreshTokenForm rejectParse invalidGrantThenFailHttp
        ⟨passwordWrapper, 0, []⟩ =
      sendRequestTokenForm rejectParse invalidGrantThenFailHttp
        ⟨passwordWrapper, 1, [refreshForm passwordWrapper]⟩ ∧
    (sendRefreshTokenForm rejectParse invalidGrantThenFailHttp
        ⟨passwordWrapper, 0, []⟩).2.calls = 2 ∧
    (sendRefreshTokenForm rejectParse invalidGrantThenFailHttp
        ⟨passwordWrapper, 0, []⟩).2.trace =
      [refreshForm passwordWrapper, passwordForm passwordWrapper] := by
  have h := sendRefreshTokenForm_invalid_grant rejectParse invalidGrantThenFailHttp
    ⟨passwordWrapper, 0, []⟩ 400 invalidGrantResponse rfl rfl (by decide)
  refine ⟨h.1, h.2.1, ?_⟩
  have h2 := h.2.2
  simpa [passwordWrapper, havePassword] using h2

/-- C6: when the stored access token fails the freshness test, the stored
refresh token fails it too, and no static credentials are configured (the
token expiry bookkeeping being well formed), `tokens` falls back in this
exact order: if the refresh token has any positive remaining lifetime the
attempt is a refresh grant (one network call, the refresh form); else if
the access token has any positive remaining lifetime the stored pair is
returned with no network call; else the call fails with the exhaustion
error, again with no network call. -/
theorem tokens_fallback_order (parse : String → Except String Token)
    (http : Nat → HttpResult) (now win : Int) (w : Wrapper)
    (al rl : Bool × Int)
    (hA : tokenExpiryOf w.accessToken now = .ok al)
    (hR : tokenExpiryOf w.refreshToken now = .ok rl)
    (h1 : ¬(w.accessToken.isSome ∧ (al.1 = false ∨ al.2 ≥ win)))
    (h2 : ¬(w.refreshToken.isSome ∧ (rl.1 = false ∨ rl.2 ≥ win)))
    (h3 : haveCredentials w = false) :
    ((w.refreshToken.isSome ∧ rl.2 > 0) →
      tokens parse http now win w = refreshStep parse http ⟨w, 0, []⟩ ∧
      (tokens parse http now win w).2.trace = [refreshForm w]) ∧
    (¬(w.refreshToken.isSome ∧ rl.2 > 0) → (w.accessToken.isSome ∧ al.2 > 0) →
      tokens parse http now win w =
        (⟨0, (currentTokens w).1, (currentTokens w).2, none⟩, ⟨w, 0, []⟩)) ∧
    (¬(w.refreshToken.isSome ∧ rl.2 > 0) → ¬(w.accessToken.isSome ∧ al.2 > 0) →
      tokens parse http now win w =
        (⟨0, "", "", some exhaustionMsg⟩, ⟨w, 0, []⟩)) := by
  have hbase : tokens parse http now win w =
      (if w.refreshToken.isSome ∧ rl.2 > 0 then refreshStep parse http ⟨w, 0, []⟩
       else if w.accessToken.isSome ∧ al.2 > 0 then
         (⟨0, (currentTokens w).1, (currentTokens w).2, none⟩, ⟨w, 0, []⟩)
       else (⟨0, "", "", some exhaustionMsg⟩, ⟨w, 0, []⟩)) := by
    unfold tokens
    simp only [hA, hR]
    rw [if_neg h1, if_neg h2]
    simp [h3]
  refine ⟨?_, ?_, ?_⟩
  · intro h5
    rw [hbase, if_pos h5]
    refine ⟨rfl, ?_⟩
    rw [refreshStep_snd,
      sendRefreshTokenForm_no_creds parse http ⟨w, 0, []⟩ h3]
    have := (sendTokenFormTimed_spec parse http
      (refreshForm (⟨w, 0, []⟩ : CallSt).w) ⟨w, 0, []⟩).2.1
    simpa using this
  · intro h5 h6
    rw [hbase, if_neg h5, if_pos h6]
  · intro h5 h6
    rw [hbase, if_neg h5, if_neg h6]

/-- C6 (witness): a wrapper with no tokens and no credentials fails
immediately with the exhaustion error and makes no network call. -/
theorem tokens_fallback_order_witness :
    tokens rejectParse unreachableHttp 0 60 emptyWrapper =
      (⟨0, "", "", some exhaustionMsg⟩, ⟨emptyWrapper, 0, []⟩) := by
  have h := tokens_fallback_order rejectParse unreachableHttp 0 60 emptyWrapper
    (false, 0) (false, 0) rfl rfl (by simp [emptyWrapper])
    (by simp [emptyWrapper]) (by decide)
  exact h.2.2 (by simp [emptyWrapper]) (by simp [emptyWrapper])

/-- The token-classification loop fails exactly when some pre-supplied
token string is unacceptable (unparseable, missing or non-string `typ`
claim, or unknown type). -/
theorem classifyTokens_error_iff (parse : String → Except String Token)
    (ts : List String) (i : Nat) (a r : Option Token) :
    (∃ e, classifyTokens parse ts i a r = .error e) ↔
      ∃ s ∈ ts, tokenAcceptable parse s = false := by
  induction ts generalizing i a r with
  | nil => simp [classifyTokens]
  | cons t rest ih =>
    have hmem : ∀ P : String → Prop,
        (∃ s ∈ t :: rest, P s) ↔ (P t ∨ ∃ s ∈ rest, P s) := by
      intro P
      constructor
      · rintro ⟨s, hs, hP⟩
        rcases List.mem_cons.mp hs with h | h
        · subst h
          exact Or.inl hP
        · exact Or.inr ⟨s, h, hP⟩
      · rintro (h | ⟨s, hs, hP⟩)
        · exact ⟨t, List.mem_cons_self t rest, h⟩
        · exact ⟨s, List.mem_cons_of_mem t hs, hP⟩
    rw [hmem]
    cases hp : parse t with
    | error e =>
      have hacc : tokenAcceptable parse t = false := by
        simp [tokenAcceptable, hp]
      have hcl : classifyTokens parse (t :: rest) i a r =
          .error ("can't parse token " ++ toString i ++ ": " ++ e) := by
        simp [classifyTokens, hp]
      exact ⟨fun _ => Or.inl hacc, fun _ => ⟨_, hcl⟩⟩
    | ok tok =>
      cases htyp : tok.claims.lookup "typ" with
      | none =>
        have hacc : tokenAcceptable parse t = false := by
          simp [tokenAcceptable, hp, htyp]
        have hcl : classifyTokens parse (t :: rest) i a r =
            .error ("token " ++ toString i ++ " doesn't contain the typ claim") := by
          simp [classifyTokens, hp, htyp]
        exact ⟨fun _ => Or.inl hacc, fun _ => ⟨_, hcl⟩⟩
      | some cv =>
        cases cv with
        | str ty =>
          by_cases hb : eqFold ty "Bearer" = true
          · have hacc : tokenAcceptable parse t = true := by
              simp [tokenAcceptable, hp, htyp, hb]
            have hcl : classifyTokens parse (t :: rest) i a r =
                classifyTokens parse rest (i + 1) (some tok) r := by
              simp [classifyTokens, hp, htyp, hb]
            rw [hcl, ih]
            constructor
            · exact Or.inr
            · rintro (h | h)
              · rw [hacc] at h
                cases h
              · exact h
          · by_cases hr2 : eqFold ty "Refresh" = true
            · have hacc : tokenAcceptable parse t = true := by
                simp [tokenAcceptable, hp, htyp, hr2]
              have hcl : classifyTokens parse (t :: rest) i a r =
                  classifyTokens parse rest (i + 1) a (some tok) := by
                simp [classifyTokens, hp, htyp, hb, hr2]
              rw [hcl, ih]
              constructor
              · exact Or.inr
              · rintro (h | h)
                · rw [hacc] at h
                  cases h
                · exact h
            · by_cases ho : eqFold ty "Offline" = true
              · have hacc : tokenAcceptable parse t = true := by
                  simp [tokenAcceptable, hp, htyp, ho]
                have hcl : classifyTokens parse (t :: rest) i a r =
                    classifyTokens parse rest (i + 1) a (some tok) := by
                  simp [classifyTokens, hp, htyp, hb, hr2, ho]
                rw [hcl, ih]
                constructor
                · exact Or.inr
                · rintro (h | h)
                  · rw [hacc] at h
                    cases h
                  · exact h
              · have hacc : tokenAcceptable parse t = false := by
                  simp [tokenAcceptable, hp, htyp, hb, hr2, ho]
                have hcl : classifyTokens parse (t :: rest) i a r =
                    .error ("type " ++ ty ++ " of token " ++ toString i ++
                      " is unknown") := by
                  simp [classifyTokens, hp, htyp, hb, hr2, ho]
                exact ⟨fun _ => Or.inl hacc, fun _ => ⟨_, hcl⟩⟩
        | num n =>
          have hacc : tokenAcceptable parse t = false := by
            simp [tokenAcceptable, hp, htyp]
          have hcl : classifyTokens parse (t :: rest) i a r =
              .error ("claim type of token " ++ toString i ++
                " has a wrong type") := by
            simp [classifyTokens, hp, htyp]
          exact ⟨fun _ => Or.inl hacc, fun _ => ⟨_, hcl⟩⟩
        | other =>
          have hacc : tokenAcceptable parse t = false := by
            simp [tokenAcceptable, hp, htyp]
          have hcl : classifyTokens parse (t :: rest) i a r =
              .error ("claim type of token " ++ toString i ++
                " has a wrong type") := by
            simp [classifyTokens, hp, htyp]
          exact ⟨fun _ => Or.inl hacc, fun _ => ⟨_, hcl⟩⟩

/-- C7: `Build` fails exactly when no logger is supplied, or none of
{pre-supplied tokens, user name + password, client id + secret} is
present, or some pre-supplied token is unacceptable (cannot be parsed,
lacks a string `typ` claim, or has a `typ` other than
Bearer/Refresh/Offline), or the effective token URL cannot be parsed;
otherwise `Build` returns a constructed wrapper. -/
theorem Build_fails_iff (parse : String → Except String Token)
    (parseURL : String → Bool) (b : BuildInput) :
    ((∃ e, Build parse parseURL b = .error e) ↔
      (b.haveLogger = false ∨
       (b.tokens = [] ∧ ¬(b.user ≠ "" ∧ b.password ≠ "") ∧
         ¬(b.clientID ≠ "" ∧ b.clientSecret ≠ "")) ∨
       (∃ s ∈ b.tokens, tokenAcceptable parse s = false) ∨
       parseURL (if b.tokenURL = "" then DefaultTokenURL else b.tokenURL)
         = false)) ∧
    (¬(b.haveLogger = false ∨
       (b.tokens = [] ∧ ¬(b.user ≠ "" ∧ b.password ≠ "") ∧
         ¬(b.clientID ≠ "" ∧ b.clientSecret ≠ "")) ∨
       (∃ s ∈ b.tokens, tokenAcceptable parse s = false) ∨
       parseURL (if b.tokenURL = "" then DefaultTokenURL else b.tokenURL)
         = false) →
      ∃ w, Build parse parseURL b = .ok w) := by
  have hiff : (∃ e, Build parse parseURL b = .error e) ↔
      (b.haveLogger = false ∨
       (b.tokens = [] ∧ ¬(b.user ≠ "" ∧ b.password ≠ "") ∧
         ¬(b.clientID ≠ "" ∧ b.clientSecret ≠ "")) ∨
       (∃ s ∈ b.tokens, tokenAcceptable parse s = false) ∨
       parseURL (if b.tokenURL = "" then DefaultTokenURL else b.tokenURL)
         = false) := by
    cases hlog : b.haveLogger with
    | false =>
      have hcl : Build parse parseURL b = .error "logger is mandatory" := by
        simp [Build, hlog]
      exact ⟨fun _ => Or.inl rfl, fun _ => ⟨_, hcl⟩⟩
    | true =>
      by_cases hnc : b.tokens = [] ∧ ¬(b.user ≠ "" ∧ b.password ≠ "") ∧
          ¬(b.clientID ≠ "" ∧ b.clientSecret ≠ "")
      · have hcl : Build parse parseURL b =
            .error ("either a token, an user name and password or a client identifier " ++
              "and secret are necessary, but none has been provided") := by
          unfold Build
          rw [if_neg (by simp [hlog]), if_pos hnc]
        exact ⟨fun _ => Or.inr (Or.inl hnc), fun _ => ⟨_, hcl⟩⟩
      · cases hcls : classifyTokens parse b.tokens 0 none none with
        | error e =>
          have hbad : ∃ s ∈ b.tokens, tokenAcceptable parse s = false :=
            (classifyTokens_error_iff parse b.tokens 0 none none).mp ⟨e, hcls⟩
          have hcl : Build parse parseURL b = .error e := by
            unfold Build
            rw [if_neg (by simp [hlog]), if_neg hnc, hcls]
          exact ⟨fun _ => Or.inr (Or.inr (Or.inl hbad)), fun _ => ⟨_, hcl⟩⟩
        | ok ar =>
          by_cases hurl : parseURL
              (if b.tokenURL = "" then DefaultTokenURL else b.tokenURL) = false
          · have hcl : Build parse parseURL b =
                .error ("can't parse token URL " ++
                  (if b.tokenURL = "" then DefaultTokenURL else b.tokenURL)) := by
              unfold Build
              rw [if_neg (by simp [hlog]), if_neg hnc, hcls]
              simp [hurl]
            exact ⟨fun _ => Or.inr (Or.inr (Or.inr hurl)),
              fun _ => ⟨_, hcl⟩⟩
          · have hok : ∃ w, Build parse parseURL b = .ok w := by
              unfold Build
              rw [if_neg (by simp [hlog]), if_neg hnc, hcls]
              simp [hurl]
            constructor
            · rintro ⟨e, he⟩
              obtain ⟨w, hw⟩ := hok
              rw [hw] at he
              cases he
            · rintro (h | h | h | h)
              · cases h
              · exact absurd h hnc
              · have hec : ∃ e, classifyTokens parse b.tokens 0 none none
                    = .error e :=
                  (classifyTokens_error_iff parse b.tokens 0 none none).mpr h
                obtain ⟨e, he⟩ := hec
                rw [hcls] at he
                cases he
              · exact absurd h hurl
  refine ⟨hiff, ?_⟩
  intro hnot
  cases hb : Build parse parseURL b with
  | ok w => exact ⟨w, rfl⟩
  | error e => exact absurd (hiff.mp ⟨e, hb⟩) hnot

/-- C7 (witness): a configuration with a logger, two acceptable
pre-supplied tokens and a parseable URL builds successfully. -/
theorem Build_fails_iff_witness :
    ∃ w, Build bearerOfflineParse anyURL bearerOfflineInput = .ok w := by
  refine (Build_fails_iff bearerOfflineParse anyURL bearerOfflineInput).2 ?_
  rintro (h | h | h | h)
  · cases h
  · exact absurd h.1 (by decide)
  · obtain ⟨s, hs, hbad⟩ := h
    have : s = "B" ∨ s = "O" := by
      rcases List.mem_cons.mp hs with h1 | h1
      · exact Or.inl h1
      · rcases List.mem_cons.mp h1 with h2 | h2
        · exact Or.inr h2
        · cases h2
    rcases this with h1 | h1 <;> subst h1 <;> revert hbad <;> decide
  · cases h

/-- A token whose `typ` claim classifies it as `Refresh`/`Offline` is not
classified as `Bearer`. -/
theorem typ_exclusive2 (t : Token) (hr : typIsRefresh t = true) :
    typIsBearer t = false := by
  unfold typIsRefresh at hr
  unfold typIsBearer
  cases h : t.claims.lookup "typ" with
  | none => rfl
  | some cv =>
    rw [h] at hr
    cases cv with
    | str ty =>
      show eqFold ty "Bearer" = false
      rcases Bool.or_eq_true_iff.mp hr with h2 | h2
      · have hf : ty.data.map foldChar = "Refresh".data.map foldChar := by
          unfold eqFold at h2
          exact of_decide_eq_true h2
        unfold eqFold
        rw [hf]
        decide
      · have hf : ty.data.map foldChar = "Offline".data.map foldChar := by
          unfold eqFold at h2
          exact of_decide_eq_true h2
        unfold eqFold
        rw [hf]
        decide
    | num n => cases hr
    | other => cases hr

/-- What a successful run of the classification loop stores: the refresh
slot ends as the last `Refresh`/`Offline`-typed token (or the initial
value when none occurs), the access slot as the last `Bearer`-typed token
(or the initial value), and each slot only ever holds a token of its own
class or its initial value. -/
theorem classifyTokens_ok_char (parse : String → Except String Token)
    (ts : List String) (i : Nat) (a r : Option Token) (acc ref : Option Token)
    (h : classifyTokens parse ts i a r = .ok (acc, ref)) :
    (∀ u v s t, ts = u ++ s :: v → parse s = .ok t → typIsRefresh t = true →
      (∀ s2 t2, s2 ∈ v → parse s2 = .ok t2 → typIsRefresh t2 = false) →
      ref = some t) ∧
    (∀ u v s t, ts = u ++ s :: v → parse s = .ok t → typIsBearer t = true →
      (∀ s2 t2, s2 ∈ v → parse s2 = .ok t2 → typIsBearer t2 = false) →
      acc = some t) ∧
    (∀ t, acc = some t → typIsBearer t = true ∨ a = some t) ∧
    (∀ t, ref = some t → typIsRefresh t = true ∨ r = some t) ∧
    ((∀ s2 t2, s2 ∈ ts → parse s2 = .ok t2 → typIsBearer t2 = false) →
      acc = a) ∧
    ((∀ s2 t2, s2 ∈ ts → parse s2 = .ok t2 → typIsRefresh t2 = false) →
      ref = r) := by
  induction ts generalizing i a r with
  | nil =>
    have hh : a = acc ∧ r = ref := by
      have h2 : Except.ok (ε := String) (a, r) = .ok (acc, ref) := h
      injection h2 with h3
      exact ⟨congrArg Prod.fst h3, congrArg Prod.snd h3⟩
    obtain ⟨ha, hr⟩ := hh
    subst ha
    subst hr
    refine ⟨?_, ?_, fun t ht => Or.inr ht, fun t ht => Or.inr ht,
      fun _ => rfl, fun _ => rfl⟩
    · intro u v s t hdec
      exact absurd hdec (by cases u <;> simp)
    · intro u v s t hdec
      exact absurd hdec (by cases u <;> simp)
  | cons t0 rest ih =>
    cases hp0 : parse t0 with
    | error e =>
      exfalso
      simp [classifyTokens, hp0] at h
    | ok tok =>
      cases htyp : tok.claims.lookup "typ" with
      | none =>
        exfalso
        simp [classifyTokens, hp0, htyp] at h
      | some cv =>
        cases cv with
        | num n =>
          exfalso
          simp [classifyTokens, hp0, htyp] at h
        | other =>
          exfalso
          simp [classifyTokens, hp0, htyp] at h
        | str ty =>
          by_cases hbB : eqFold ty "Bearer" = true
          · -- Bearer branch: the access slot is overwritten with tok
            have hth : typIsBearer tok = true := by
              unfold typIsBearer
              rw [htyp]
              exact hbB
            have hre : classifyTokens parse (t0 :: rest) i a r =
                classifyTokens parse rest (i + 1) (some tok) r := by
              simp [classifyTokens, hp0, htyp, hbB]
            rw [hre] at h
            have IH := ih (i + 1) (some tok) r h
            refine ⟨?_, ?_, ?_, ?_, ?_, ?_⟩
            · intro u v s t hdec hp ht hlast
              cases u with
              | nil =>
                exfalso
                have hs : t0 = s ∧ rest = v := by
                  injection hdec with h1 h2
                  exact ⟨h1, h2⟩
                obtain ⟨hs1, hs2⟩ := hs
                subst hs1
                rw [hp0] at hp
                injection hp with hpt
                subst hpt
                rw [typ_exclusive tok hth] at ht
                cases ht
              | cons u0 u2 =>
                have hs : t0 = u0 ∧ rest = u2 ++ s :: v := by
                  injection hdec with h1 h2
                  exact ⟨h1, h2⟩
                exact IH.1 u2 v s t hs.2 hp ht hlast
            · intro u v s t hdec hp ht hlast
              cases u with
              | nil =>
                have hs : t0 = s ∧ rest = v := by
                  injection hdec with h1 h2
                  exact ⟨h1, h2⟩
                obtain ⟨hs1, hs2⟩ := hs
                subst hs1
                rw [hp0] at hp
                injection hp with hpt
                subst hpt
                subst hs2
                exact IH.2.2.2.2.1 hlast
              | cons u0 u2 =>
                have hs : t0 = u0 ∧ rest = u2 ++ s :: v := by
                  injection hdec with h1 h2
                  exact ⟨h1, h2⟩
                exact IH.2.1 u2 v s t hs.2 hp ht hlast
            · intro t hat
              rcases IH.2.2.1 t hat with h1 | h1
              · exact Or.inl h1
              · injection h1 with h2
                subst h2
                exact Or.inl hth
            · exact IH.2.2.2.1
            · intro hnone
              exfalso
              have := hnone t0 tok (List.mem_cons_self t0 rest) hp0
              rw [hth] at this
              cases this
            · intro hnone
              exact IH.2.2.2.2.2
                (fun s2 t2 hs2 hp2 => hnone s2 t2 (List.mem_cons_of_mem t0 hs2) hp2)
          · by_cases hbR : (eqFold ty "Refresh" = true ∨ eqFold ty "Offline" = true)
            · -- Refresh/Offline branch: the refresh slot is overwritten
              have hth : typIsRefresh tok = true := by
                unfold typIsRefresh
                rw [htyp]
                rcases hbR with h1 | h1 <;> simp [h1]
              have hre : classifyTokens parse (t0 :: rest) i a r =
                  classifyTokens parse rest (i + 1) a (some tok) := by
                rcases hbR with h1 | h1 <;>
                  by_cases h2 : eqFold ty "Refresh" = true <;>
                  simp_all [classifyTokens, hp0, htyp, hbB]
              rw [hre] at h
              have IH := ih (i + 1) a (some tok) h
              refine ⟨?_, ?_, ?_, ?_, ?_, ?_⟩
              · intro u v s t hdec hp ht hlast
                cases u with
                | nil =>
                  have hs : t0 = s ∧ rest = v := by
                    injection hdec with h1 h2
                    exact ⟨h1, h2⟩
                  obtain ⟨hs1, hs2⟩ := hs
                  subst hs1
                  rw [hp0] at hp
                  injection hp with hpt
                  subst hpt
                  subst hs2
                  exact IH.2.2.2.2.2 hlast
                | cons u0 u2 =>
                  have hs : t0 = u0 ∧ rest = u2 ++ s :: v := by
                    injection hdec with h1 h2
                    exact ⟨h1, h2⟩
                  exact IH.1 u2 v s t hs.2 hp ht hlast
              · intro u v s t hdec hp ht hlast
                cases u with
                | nil =>
                  exfalso
                  have hs : t0 = s ∧ rest = v := by
                    injection hdec with h1 h2
                    exact ⟨h1, h2⟩
                  obtain ⟨hs1, hs2⟩ := hs
                  subst hs1
                  rw [hp0] at hp
                  injection hp with hpt
                  subst hpt
                  rw [typ_exclusive2 tok hth] at ht
                  cases ht
                | cons u0 u2 =>
                  have hs : t0 = u0 ∧ rest = u2 ++ s :: v := by
                    injection hdec with h1 h2
                    exact ⟨h1, h2⟩
                  exact IH.2.1 u2 v s t hs.2 hp ht hlast
              · exact IH.2.2.1
              · intro t hrt
                rcases IH.2.2.2.1 t hrt with h1 | h1
                · exact Or.inl h1
                · injection h1 with h2
                  subst h2
                  exact Or.inl hth
              · intro hnone
                exact IH.2.2.2.2.1
                  (fun s2 t2 hs2 hp2 => hnone s2 t2 (List.mem_cons_of_mem t0 hs2) hp2)
              · intro hnone
                exfalso
                have := hnone t0 tok (List.mem_cons_self t0 rest) hp0
                rw [hth] at this
                cases this
            · exfalso
              push_neg at hbR
              have hr2 : eqFold ty "Refresh" = false :=
                Bool.eq_false_iff.mpr (fun hh => hbR.1 hh)
              have ho2 : eqFold ty "Offline" = false :=
                Bool.eq_false_iff.mpr (fun hh => hbR.2 hh)
              simp [classifyTokens, hp0, htyp, hbB, hr2, ho2] at h

/-- C9 (counterexample): the pre-supplied list contains the Offline token
`O1`, but after a successful `Build` the stored refresh token is the later
Offline token `O2`, not `O1` — a later token of the same class overwrites
an earlier one, so "contains an Offline token ⟹ that token is stored" is
false as stated. -/
theorem build_offline_last_wins_cx :
    "O1" ∈ twoOfflineInput.tokens ∧
    twoOfflineParse "O1" = .ok offlineTok1 ∧
    offlineTok1.claims.lookup "typ" = some (ClaimValue.str "Offline") ∧
    Build twoOfflineParse anyURL twoOfflineInput =
      .ok ⟨DefaultClientID, DefaultClientSecret, "", "", DefaultScopes,
        DefaultTokenURL, "", none, some offlineTok2⟩ ∧
    (some offlineTok2 : Option Token) ≠ some offlineTok1 := by
  refine ⟨by simp [twoOfflineInput], rfl, rfl, by rfl, by decide⟩

/-- C9 (amended): for every successful `Build`, the last pre-supplied
token with `typ` `Refresh` or `Offline` (case-insensitively) is stored as
the wrapper's refresh token, the last token with `typ` `Bearer` is stored
as its access token, and every stored access token has `typ` `Bearer` —
so an `Offline` token is never stored as the access token. -/
theorem Build_offline_classification (parse : String → Except String Token)
    (parseURL : String → Bool) (b : BuildInput) (w : Wrapper)
    (hb : Build parse parseURL b = .ok w) :
    (∀ u v s t, b.tokens = u ++ s :: v → parse s = .ok t →
      typIsRefresh t = true →
      (∀ s2 t2, s2 ∈ v → parse s2 = .ok t2 → typIsRefresh t2 = false) →
      w.refreshToken = some t) ∧
    (∀ u v s t, b.tokens = u ++ s :: v → parse s = .ok t →
      typIsBearer t = true →
      (∀ s2 t2, s2 ∈ v → parse s2 = .ok t2 → typIsBearer t2 = false) →
      w.accessToken = some t) ∧
    (∀ t, w.accessToken = some t → typIsBearer t = true) ∧
    (∀ t, w.refreshToken = some t → typIsRefresh t = true) := by
  cases hlog : b.haveLogger with
  | false =>
    exfalso
    have hcl : Build parse parseURL b = .error "logger is mandatory" := by
      simp [Build, hlog]
    rw [hcl] at hb
    cases hb
  | true =>
    by_cases hnc : b.tokens = [] ∧ ¬(b.user ≠ "" ∧ b.password ≠ "") ∧
        ¬(b.clientID ≠ "" ∧ b.clientSecret ≠ "")
    · exfalso
      have hcl : Build parse parseURL b =
          .error ("either a token, an user name and password or a client identifier " ++
            "and secret are necessary, but none has been provided") := by
        unfold Build
        rw [if_neg (by simp [hlog]), if_pos hnc]
      rw [hcl] at hb
      cases hb
    · cases hcls : classifyTokens parse b.tokens 0 none none with
      | error e =>
        exfalso
        have hcl : Build parse parseURL b = .error e := by
          unfold Build
          rw [if_neg (by simp [hlog]), if_neg hnc, hcls]
        rw [hcl] at hb
        cases hb
      | ok ar =>
        by_cases hurl : parseURL
            (if b.tokenURL = "" then DefaultTokenURL else b.tokenURL) = false
        · exfalso
          have hcl : Build parse parseURL b =
              .error ("can't parse token URL " ++
                (if b.tokenURL = "" then DefaultTokenURL else b.tokenURL)) := by
            unfold Build
            rw [if_neg (by simp [hlog]), if_neg hnc, hcls]
            simp [hurl]
          rw [hcl] at hb
          cases hb
        · have hcl : Build parse parseURL b = .ok
              { clientID := if b.clientID = "" then DefaultClientID else b.clientID
                clientSecret :=
                  if b.clientSecret = "" then DefaultClientSecret else b.clientSecret
                user := b.user
                password := b.password
                scopes := if b.scopes = [] then DefaultScopes else b.scopes
                tokenURL := if b.tokenURL = "" then DefaultTokenURL else b.tokenURL
                agent := b.agent
                accessToken := ar.1
                refreshToken := ar.2 } := by
            unfold Build
            rw [if_neg (by simp [hlog]), if_neg hnc, hcls]
            simp [hurl]
          rw [hcl] at hb
          injection hb with hb2
          have hacc : w.accessToken = ar.1 := by rw [← hb2]
          have href : w.refreshToken = ar.2 := by rw [← hb2]
          have hchar := classifyTokens_ok_char parse b.tokens 0 none none
            ar.1 ar.2 (by rw [hcls])
          refine ⟨?_, ?_, ?_, ?_⟩
          · intro u v s t hdec hp ht hlast
            rw [href]
            exact hchar.1 u v s t hdec hp ht hlast
          · intro u v s t hdec hp ht hlast
            rw [hacc]
            exact hchar.2.1 u v s t hdec hp ht hlast
          · intro t hat
            have hat2 : ar.1 = some t := by rw [← hacc]; exact hat
            rcases hchar.2.2.1 t hat2 with h1 | h1
            · exact h1
            · cases h1
          · intro t hrt
            have hrt2 : ar.2 = some t := by rw [← href]; exact hrt
            rcases hchar.2.2.2.1 t hrt2 with h1 | h1
            · exact h1
            · cases h1

/-- C9 (witness): building from a `Bearer` token `B` and an `Offline`
token `O` stores `O` as the refresh token and `B` as the access token,
via the amended theorem. -/
theorem Build_offline_classification_witness :
    Build bearerOfflineParse anyURL bearerOfflineInput = .ok builtBearerOffline ∧
    builtBearerOffline.refreshToken = some offlineTok ∧
    builtBearerOffline.accessToken = some bearerTok := by
  have hb : Build bearerOfflineParse anyURL bearerOfflineInput
      = .ok builtBearerOffline := rfl
  have h := Build_offline_classification bearerOfflineParse anyURL
    bearerOfflineInput builtBearerOffline hb
  refine ⟨hb, ?_, ?_⟩
  · exact h.1 ["B"] [] "O" offlineTok rfl rfl (by decide)
      (by intro s2 t2 hs2 hp2; simp at hs2)
  · refine h.2.1 [] ["O"] "B" bearerTok rfl rfl (by decide) ?_
    intro s2 t2 hs2 hp2
    have hs : s2 = "O" := by simpa using hs2
    subst hs
    have ht2 : t2 = offlineTok := by
      have h3 : (Except.ok offlineTok : Except String Token) = .ok t2 := by
        rw [← hp2]
        rfl
      injection h3 with h4
      exact h4.symm
    subst ht2
    decide
